import Mathlib

/-!
Verification development for the generated protobuf binding
`pulsar-functions/instance/src/main/python/InstanceCommunication_pb2.py`.

The file embeds, shallowly:
* the descriptor data of the generated module (field names, numbers, wire
  types, labels, default values, message links, the `InstanceControl`
  service methods), copied entry by entry from the `_descriptor.Descriptor`
  and `_descriptor.ServiceDescriptor` constructions in the source;
* the message value types (`FunctionStatus` and its nested messages,
  `MetricsData` and its nested messages) together with the standard proto3
  binary wire format they are serialized with (varint scalars, fixed64
  doubles, length-delimited strings and submessages, default-valued scalar
  fields omitted), so that round-trip properties can be stated and proved.

Doubles are modelled by their IEEE-754 bit patterns (a `Nat` below `2 ^ 64`):
the wire format serializes exactly this 64-bit pattern, so serialization
statements about double fields are statements about the pattern.  Strings
are modelled as their UTF-8 byte lists.  64-bit signed integers are
modelled as `Int` with the two's-complement range side condition.
-/

namespace InstanceComm

/-! ## Descriptor embedding

Each `FieldDescriptor(...)` construction of the source is copied into a
`FieldDescriptor` value: `name`, `number`, `type` (protobuf type code:
1 = double, 3 = int64, 8 = bool, 9 = string, 11 = message), `cpp_type`,
`label` (1 = optional, 3 = repeated), `default_value` and the
`message_type` link installed by the wiring statements near the end of the
source file. -/

/-- Default value of a descriptor field, as written in the source:
`False`, `_b("").decode(...)`, `0`, `[]`, `None`, or `float(0)` (a double,
modelled by its bit pattern, `float(0)` having pattern `0`). -/
inductive DefaultVal where
  | dBool (b : Bool)
  | dStr (s : String)
  | dInt (i : Int)
  | dList
  | dNone
  | dDouble (pattern : Nat)
deriving Repr, DecidableEq

/-- One `_descriptor.FieldDescriptor(...)` entry of the source. -/
structure FieldDescriptor where
  name : String
  fullName : String
  index : Nat
  number : Nat
  typeCode : Nat
  cppType : Nat
  label : Nat
  defaultValue : DefaultVal
  messageType : Option String
deriving Repr, DecidableEq

/-- Fields of `_FUNCTIONSTATUS_EXCEPTIONINFORMATION` (source lines 49-84). -/
def exceptionInformationFields : List FieldDescriptor :=
  [ { name := "exceptionString",
      fullName := "proto.FunctionStatus.ExceptionInformation.exceptionString",
      index := 0, number := 1, typeCode := 9, cppType := 9, label := 1,
      defaultValue := .dStr "", messageType := none },
    { name := "msSinceEpoch",
      fullName := "proto.FunctionStatus.ExceptionInformation.msSinceEpoch",
      index := 1, number := 2, typeCode := 3, cppType := 2, label := 1,
      defaultValue := .dInt 0, messageType := none } ]

/-- Fields of `_FUNCTIONSTATUS_DESERIALIZATIONEXCEPTIONSENTRY`
(source lines 86-121); the entry message carries the `8\x01`
(`map_entry = true`) message option. -/
def deserializationExceptionsEntryFields : List FieldDescriptor :=
  [ { name := "key",
      fullName := "proto.FunctionStatus.DeserializationExceptionsEntry.key",
      index := 0, number := 1, typeCode := 9, cppType := 9, label := 1,
      defaultValue := .dStr "", messageType := none },
    { name := "value",
      fullName := "proto.FunctionStatus.DeserializationExceptionsEntry.value",
      index := 1, number := 2, typeCode := 3, cppType := 2, label := 1,
      defaultValue := .dInt 0, messageType := none } ]

/-- Fields of `_FUNCTIONSTATUS` (source lines 123-249), with the
`message_type` links installed at source lines 434-437. -/
def functionStatusFields : List FieldDescriptor :=
  [ { name := "running", fullName := "proto.FunctionStatus.running",
      index := 0, number := 1, typeCode := 8, cppType := 7, label := 1,
      defaultValue := .dBool false, messageType := none },
    { name := "failureException", fullName := "proto.FunctionStatus.failureException",
      index := 1, number := 2, typeCode := 9, cppType := 9, label := 1,
      defaultValue := .dStr "", messageType := none },
    { name := "numRestarts", fullName := "proto.FunctionStatus.numRestarts",
      index := 2, number := 3, typeCode := 3, cppType := 2, label := 1,
      defaultValue := .dInt 0, messageType := none },
    { name := "numProcessed", fullName := "proto.FunctionStatus.numProcessed",
      index := 3, number := 4, typeCode := 3, cppType := 2, label := 1,
      defaultValue := .dInt 0, messageType := none },
    { name := "numSuccessfullyProcessed",
      fullName := "proto.FunctionStatus.numSuccessfullyProcessed",
      index := 4, number := 5, typeCode := 3, cppType := 2, label := 1,
      defaultValue := .dInt 0, messageType := none },
    { name := "numUserExceptions", fullName := "proto.FunctionStatus.numUserExceptions",
      index := 5, number := 6, typeCode := 3, cppType := 2, label := 1,
      defaultValue := .dInt 0, messageType := none },
    { name := "latestUserExceptions",
      fullName := "proto.FunctionStatus.latestUserExceptions",
      index := 6, number := 7, typeCode := 11, cppType := 10, label := 3,
      defaultValue := .dList,
      messageType := some "proto.FunctionStatus.ExceptionInformation" },
    { name := "numSystemExceptions", fullName := "proto.FunctionStatus.numSystemExceptions",
      index := 7, number := 8, typeCode := 3, cppType := 2, label := 1,
      defaultValue := .dInt 0, messageType := none },
    { name := "latestSystemExceptions",
      fullName := "proto.FunctionStatus.latestSystemExceptions",
      index := 8, number := 9, typeCode := 11, cppType := 10, label := 3,
      defaultValue := .dList,
      messageType := some "proto.FunctionStatus.ExceptionInformation" },
    { name := "deserializationExceptions",
      fullName := "proto.FunctionStatus.deserializationExceptions",
      index := 9, number := 10, typeCode := 11, cppType := 10, label := 3,
      defaultValue := .dList,
      messageType := some "proto.FunctionStatus.DeserializationExceptionsEntry" },
    { name := "serializationExceptions",
      fullName := "proto.FunctionStatus.serializationExceptions",
      index := 10, number := 11, typeCode := 3, cppType := 2, label := 1,
      defaultValue := .dInt 0, messageType := none },
    { name := "averageLatency", fullName := "proto.FunctionStatus.averageLatency",
      index := 11, number := 12, typeCode := 1, cppType := 5, label := 1,
      defaultValue := .dDouble 0, messageType := none },
    { name := "lastInvocationTime", fullName := "proto.FunctionStatus.lastInvocationTime",
      index := 12, number := 13, typeCode := 3, cppType := 2, label := 1,
      defaultValue := .dInt 0, messageType := none },
    { name := "instanceId", fullName := "proto.FunctionStatus.instanceId",
      index := 13, number := 14, typeCode := 9, cppType := 9, label := 1,
      defaultValue := .dStr "", messageType := none },
    { name := "metrics", fullName := "proto.FunctionStatus.metrics",
      index := 14, number := 15, typeCode := 11, cppType := 10, label := 1,
      defaultValue := .dNone, messageType := some "proto.MetricsData" } ]

/-- Fields of `_FUNCTIONSTATUSLIST` (source lines 252-280). -/
def functionStatusListFields : List FieldDescriptor :=
  [ { name := "functionStatusList",
      fullName := "proto.FunctionStatusList.functionStatusList",
      index := 0, number := 1, typeCode := 11, cppType := 10, label := 3,
      defaultValue := .dList, messageType := some "proto.FunctionStatus" } ]

/-- Fields of `_METRICSDATA_DATADIGEST` (source lines 283-332). -/
def dataDigestFields : List FieldDescriptor :=
  [ { name := "count", fullName := "proto.MetricsData.DataDigest.count",
      index := 0, number := 1, typeCode := 1, cppType := 5, label := 1,
      defaultValue := .dDouble 0, messageType := none },
    { name := "sum", fullName := "proto.MetricsData.DataDigest.sum",
      index := 1, number := 2, typeCode := 1, cppType := 5, label := 1,
      defaultValue := .dDouble 0, messageType := none },
    { name := "max", fullName := "proto.MetricsData.DataDigest.max",
      index := 2, number := 3, typeCode := 1, cppType := 5, label := 1,
      defaultValue := .dDouble 0, messageType := none },
    { name := "min", fullName := "proto.MetricsData.DataDigest.min",
      index := 3, number := 4, typeCode := 1, cppType := 5, label := 1,
      defaultValue := .dDouble 0, messageType := none } ]

/-- Fields of `_METRICSDATA_METRICSENTRY` (source lines 334-369); the entry
message carries the `8\x01` (`map_entry = true`) message option, and the
`value` link to `DataDigest` is installed at source line 440. -/
def metricsEntryFields : List FieldDescriptor :=
  [ { name := "key", fullName := "proto.MetricsData.MetricsEntry.key",
      index := 0, number := 1, typeCode := 9, cppType := 9, label := 1,
      defaultValue := .dStr "", messageType := none },
    { name := "value", fullName := "proto.MetricsData.MetricsEntry.value",
      index := 1, number := 2, typeCode := 11, cppType := 10, label := 1,
      defaultValue := .dNone, messageType := some "proto.MetricsData.DataDigest" } ]

/-- Fields of `_METRICSDATA` (source lines 371-399), `message_type` link
installed at source line 442. -/
def metricsDataFields : List FieldDescriptor :=
  [ { name := "metrics", fullName := "proto.MetricsData.metrics",
      index := 0, number := 1, typeCode := 11, cppType := 10, label := 3,
      defaultValue := .dList, messageType := some "proto.MetricsData.MetricsEntry" } ]

/-- Fields of `_HEALTHCHECKRESULT` (source lines 402-430). -/
def healthCheckResultFields : List FieldDescriptor :=
  [ { name := "success", fullName := "proto.HealthCheckResult.success",
      index := 0, number := 1, typeCode := 8, cppType := 7, label := 1,
      defaultValue := .dBool false, messageType := none } ]

/-- One message `Descriptor(...)` of the source: its name, field list, and
whether it carries the `map_entry` message option (`8\x01`). -/
structure MessageDescriptor where
  name : String
  fullName : String
  fields : List FieldDescriptor
  isMapEntry : Bool
deriving Repr, DecidableEq

def exceptionInformationDescriptor : MessageDescriptor :=
  { name := "ExceptionInformation",
    fullName := "proto.FunctionStatus.ExceptionInformation",
    fields := exceptionInformationFields, isMapEntry := false }

def deserializationExceptionsEntryDescriptor : MessageDescriptor :=
  { name := "DeserializationExceptionsEntry",
    fullName := "proto.FunctionStatus.DeserializationExceptionsEntry",
    fields := deserializationExceptionsEntryFields, isMapEntry := true }

def functionStatusDescriptor : MessageDescriptor :=
  { name := "FunctionStatus", fullName := "proto.FunctionStatus",
    fields := functionStatusFields, isMapEntry := false }

def dataDigestDescriptor : MessageDescriptor :=
  { name := "DataDigest", fullName := "proto.MetricsData.DataDigest",
    fields := dataDigestFields, isMapEntry := false }

def metricsEntryDescriptor : MessageDescriptor :=
  { name := "MetricsEntry", fullName := "proto.MetricsData.MetricsEntry",
    fields := metricsEntryFields, isMapEntry := true }

def metricsDataDescriptor : MessageDescriptor :=
  { name := "MetricsData", fullName := "proto.MetricsData",
    fields := metricsDataFields, isMapEntry := false }

def healthCheckResultDescriptor : MessageDescriptor :=
  { name := "HealthCheckResult", fullName := "proto.HealthCheckResult",
    fields := healthCheckResultFields, isMapEntry := false }

/-- One `_descriptor.MethodDescriptor(...)` of `_INSTANCECONTROL`
(source lines 517-571): name, index, input and output message full names. -/
structure MethodDescriptor where
  name : String
  fullName : String
  index : Nat
  inputType : String
  outputType : String
deriving Repr, DecidableEq

/-- The method list of the `_INSTANCECONTROL` service descriptor
(source lines 525-571), entry by entry. -/
def instanceControlMethods : List MethodDescriptor :=
  [ { name := "GetFunctionStatus", fullName := "proto.InstanceControl.GetFunctionStatus",
      index := 0, inputType := "google.protobuf.Empty",
      outputType := "proto.FunctionStatus" },
    { name := "GetAndResetMetrics", fullName := "proto.InstanceControl.GetAndResetMetrics",
      index := 1, inputType := "google.protobuf.Empty",
      outputType := "proto.MetricsData" },
    { name := "ResetMetrics", fullName := "proto.InstanceControl.ResetMetrics",
      index := 2, inputType := "google.protobuf.Empty",
      outputType := "google.protobuf.Empty" },
    { name := "GetMetrics", fullName := "proto.InstanceControl.GetMetrics",
      index := 3, inputType := "google.protobuf.Empty",
      outputType := "proto.MetricsData" },
    { name := "HealthCheck", fullName := "proto.InstanceControl.HealthCheck",
      index := 4, inputType := "google.protobuf.Empty",
      outputType := "proto.HealthCheckResult" } ]

/-- Looks a field up by name in a descriptor field list and returns its
field number. -/
def fieldNum (fs : List FieldDescriptor) (n : String) : Option Nat :=
  (fs.find? (fun f => f.name == n)).map (fun f => f.number)

/-! ## Message value types

The value carried by each generated message class.  Strings are UTF-8 byte
lists, int64 fields are `Int` (bounded by the `Valid` predicates below),
double fields are IEEE-754 bit patterns (`Nat` below `2 ^ 64`).  Map fields
are the entry lists in serialization order (the Python dict iteration
order), with the key-uniqueness of a dict recorded in `Valid`. -/

/-- `proto.FunctionStatus.ExceptionInformation`. -/
structure ExceptionInformation where
  exceptionString : List Nat
  msSinceEpoch : Int
deriving Repr, DecidableEq

/-- A fresh `ExceptionInformation()`: descriptor defaults `""` and `0`. -/
def eiDefault : ExceptionInformation := { exceptionString := [], msSinceEpoch := 0 }

/-- `proto.MetricsData.DataDigest`: four double fields, kept as bit
patterns. -/
structure DataDigest where
  count : Nat
  sum : Nat
  max : Nat
  min : Nat
deriving Repr, DecidableEq

/-- A fresh `DataDigest()`: every double field defaults to `float(0)`,
pattern `0`. -/
def digestDefault : DataDigest := { count := 0, sum := 0, max := 0, min := 0 }

/-- `proto.MetricsData`: the `metrics` map, as its entry list
(key bytes, digest). -/
structure MetricsData where
  metrics : List (List Nat × DataDigest)
deriving Repr, DecidableEq

/-- A fresh `MetricsData()`: empty map. -/
def mdDefault : MetricsData := { metrics := [] }

/-- `proto.FunctionStatus`. -/
structure FunctionStatus where
  running : Bool
  failureException : List Nat
  numRestarts : Int
  numProcessed : Int
  numSuccessfullyProcessed : Int
  numUserExceptions : Int
  latestUserExceptions : List ExceptionInformation
  numSystemExceptions : Int
  latestSystemExceptions : List ExceptionInformation
  deserializationExceptions : List (List Nat × Int)
  serializationExceptions : Int
  averageLatency : Nat
  lastInvocationTime : Int
  instanceId : List Nat
  metrics : Option MetricsData
deriving Repr, DecidableEq

/-- A fresh `FunctionStatus()`: every field at its descriptor
`default_value` (`False`, `""`, `0`, `[]`, `float(0)` and the unset
submessage `None`). -/
def fsDefault : FunctionStatus :=
  { running := false, failureException := [], numRestarts := 0,
    numProcessed := 0, numSuccessfullyProcessed := 0, numUserExceptions := 0,
    latestUserExceptions := [], numSystemExceptions := 0,
    latestSystemExceptions := [], deserializationExceptions := [],
    serializationExceptions := 0, averageLatency := 0,
    lastInvocationTime := 0, instanceId := [], metrics := none }

/-- `proto.HealthCheckResult`: the single bool `success`. -/
structure HealthCheckResult where
  success : Bool
deriving Repr, DecidableEq

/-! ## Validity

What it means for a Lean value to denote a value of the Python message
class: string fields are genuine byte lists, int64 fields are within the
signed 64-bit range, double patterns are 64-bit, map keys are unique (the
Python representation is a dict). -/

/-- All entries of a modelled string are bytes. -/
def bytesOK (s : List Nat) : Prop := ∀ b ∈ s, b < 256

/-- A modelled int64 is within the signed 64-bit range. -/
def i64OK (v : Int) : Prop := -(2 ^ 63) ≤ v ∧ v < 2 ^ 63

/-- A modelled double pattern is a 64-bit pattern. -/
def patOK (p : Nat) : Prop := p < 2 ^ 64

instance (s : List Nat) : Decidable (bytesOK s) := by
  unfold bytesOK; infer_instance

instance (v : Int) : Decidable (i64OK v) := by
  unfold i64OK; infer_instance

instance (p : Nat) : Decidable (patOK p) := by
  unfold patOK; infer_instance

def ExceptionInformation.Valid (e : ExceptionInformation) : Prop :=
  bytesOK e.exceptionString ∧ i64OK e.msSinceEpoch

def DataDigest.Valid (d : DataDigest) : Prop :=
  patOK d.count ∧ patOK d.sum ∧ patOK d.max ∧ patOK d.min

def MetricsData.Valid (m : MetricsData) : Prop :=
  (∀ p ∈ m.metrics, bytesOK p.1 ∧ p.2.Valid) ∧ (m.metrics.map Prod.fst).Nodup

def FunctionStatus.Valid (fs : FunctionStatus) : Prop :=
  bytesOK fs.failureException ∧
  i64OK fs.numRestarts ∧ i64OK fs.numProcessed ∧
  i64OK fs.numSuccessfullyProcessed ∧ i64OK fs.numUserExceptions ∧
  (∀ e ∈ fs.latestUserExceptions, e.Valid) ∧
  i64OK fs.numSystemExceptions ∧
  (∀ e ∈ fs.latestSystemExceptions, e.Valid) ∧
  (∀ p ∈ fs.deserializationExceptions, bytesOK p.1 ∧ i64OK p.2) ∧
  (fs.deserializationExceptions.map Prod.fst).Nodup ∧
  i64OK fs.serializationExceptions ∧ patOK fs.averageLatency ∧
  i64OK fs.lastInvocationTime ∧ bytesOK fs.instanceId ∧
  (∀ m ∈ fs.metrics, m.Valid)

instance (e : ExceptionInformation) : Decidable e.Valid := by
  unfold ExceptionInformation.Valid; infer_instance

instance (d : DataDigest) : Decidable d.Valid := by
  unfold DataDigest.Valid; infer_instance

instance (m : MetricsData) : Decidable m.Valid := by
  unfold MetricsData.Valid; infer_instance

instance (fs : FunctionStatus) : Decidable fs.Valid := by
  unfold FunctionStatus.Valid; infer_instance

/-! ## The proto3 wire format

Primitives of the standard binary encoding the generated classes use:
base-128 varints, little-endian fixed64, `tag = fieldNumber * 8 + wireType`
(wire type 0 = varint, 1 = fixed64, 2 = length-delimited), scalar fields
omitted when at their proto3 default, repeated/map fields emitted one
length-delimited record per element, in field-number order. -/

/-- Base-128 little-endian varint encoding of a natural number. -/
def varintEncode (n : Nat) : List Nat :=
  if h : n < 128 then [n]
  else (128 + n % 128) :: varintEncode (n / 128)
decreasing_by exact Nat.div_lt_self (by omega) (by omega)

/-- Varint decoding: value and remaining bytes. -/
def varintDecode : List Nat → Option (Nat × List Nat)
  | [] => none
  | b :: rest =>
    if b < 128 then some (b, rest)
    else
      match varintDecode rest with
      | some (n, r) => some ((b - 128) + 128 * n, r)
      | none => none

/-- Little-endian 8-byte encoding of a 64-bit pattern. -/
def fixed64Encode (p : Nat) : List Nat :=
  [p % 256, p / 256 % 256, p / 256 ^ 2 % 256, p / 256 ^ 3 % 256,
   p / 256 ^ 4 % 256, p / 256 ^ 5 % 256, p / 256 ^ 6 % 256, p / 256 ^ 7 % 256]

/-- Fixed64 decoding: pattern and remaining bytes. -/
def fixed64Decode : List Nat → Option (Nat × List Nat)
  | b0 :: b1 :: b2 :: b3 :: b4 :: b5 :: b6 :: b7 :: rest =>
    some (b0 + 256 * b1 + 256 ^ 2 * b2 + 256 ^ 3 * b3 + 256 ^ 4 * b4 +
          256 ^ 5 * b5 + 256 ^ 6 * b6 + 256 ^ 7 * b7, rest)
  | _ => none

/-- Two's-complement 64-bit pattern of a signed value (what an int64 field
puts in its varint). -/
def i64pat (v : Int) : Nat := (v % (2 ^ 64 : Int)).toNat

/-- Signed value of a 64-bit varint pattern (what decoding an int64 field
yields). -/
def i64val (p : Nat) : Int :=
  if p % 2 ^ 64 < 2 ^ 63 then ((p % 2 ^ 64 : Nat) : Int)
  else ((p % 2 ^ 64 : Nat) : Int) - 2 ^ 64

/-- `tag = fieldNumber * 8 + wireType`. -/
def mkTag (fieldNumber wireType : Nat) : Nat := fieldNumber * 8 + wireType

/-- A length-delimited record: tag (wire type 2), payload length, payload. -/
def lenDelim (fieldNumber : Nat) (payload : List Nat) : List Nat :=
  varintEncode (mkTag fieldNumber 2) ++ varintEncode payload.length ++ payload

/-- A string/bytes field: omitted when empty (proto3 default). -/
def encStr (fieldNumber : Nat) (s : List Nat) : List Nat :=
  if s = [] then [] else lenDelim fieldNumber s

/-- An int64 field: omitted when `0`, else a varint of the 64-bit
pattern. -/
def encInt64 (fieldNumber : Nat) (v : Int) : List Nat :=
  if v = 0 then [] else varintEncode (mkTag fieldNumber 0) ++ varintEncode (i64pat v)

/-- A bool field: omitted when `false`, else varint `1`. -/
def encBool (fieldNumber : Nat) (b : Bool) : List Nat :=
  if b then varintEncode (mkTag fieldNumber 0) ++ varintEncode 1 else []

/-- A double field: omitted when its pattern is `0` (the pattern of
`+0.0`), else a fixed64 of the pattern. -/
def encDouble (fieldNumber : Nat) (p : Nat) : List Nat :=
  if p = 0 then [] else varintEncode (mkTag fieldNumber 1) ++ fixed64Encode p

/-- Serialization of `ExceptionInformation`: `exceptionString` is field 1
(string), `msSinceEpoch` field 2 (int64). -/
def encodeEI (e : ExceptionInformation) : List Nat :=
  encStr 1 e.exceptionString ++ encInt64 2 e.msSinceEpoch

/-- Serialization of one `DeserializationExceptionsEntry`: `key` field 1
(string), `value` field 2 (int64). -/
def encodeDE (p : List Nat × Int) : List Nat :=
  encStr 1 p.1 ++ encInt64 2 p.2

/-- Serialization of `DataDigest`: `count`, `sum`, `max`, `min` are double
fields 1-4. -/
def encodeDigest (d : DataDigest) : List Nat :=
  encDouble 1 d.count ++ encDouble 2 d.sum ++ encDouble 3 d.max ++ encDouble 4 d.min

/-- Serialization of one `MetricsEntry`: `key` field 1 (string), `value`
field 2 (submessage, always set in a map entry). -/
def encodeME (p : List Nat × DataDigest) : List Nat :=
  encStr 1 p.1 ++ lenDelim 2 (encodeDigest p.2)

/-- Serialization of `MetricsData`: one length-delimited `MetricsEntry`
record (field 1) per map entry. -/
def encodeMD (m : MetricsData) : List Nat :=
  (m.metrics.map (fun p => lenDelim 1 (encodeME p))).flatten

/-- Serialization of the optional `metrics` submessage field (field 15):
nothing when unset, a length-delimited record when set (even when the
submessage body is empty, so presence survives the round trip). -/
def encOptMD (o : Option MetricsData) : List Nat :=
  match o with
  | none => []
  | some m => lenDelim 15 (encodeMD m)

/-- Serialization of `FunctionStatus`, fields in field-number order as the
generated serializer emits them. -/
def encodeFS (fs : FunctionStatus) : List Nat :=
  encBool 1 fs.running ++
  encStr 2 fs.failureException ++
  encInt64 3 fs.numRestarts ++
  encInt64 4 fs.numProcessed ++
  encInt64 5 fs.numSuccessfullyProcessed ++
  encInt64 6 fs.numUserExceptions ++
  (fs.latestUserExceptions.map (fun e => lenDelim 7 (encodeEI e))).flatten ++
  encInt64 8 fs.numSystemExceptions ++
  (fs.latestSystemExceptions.map (fun e => lenDelim 9 (encodeEI e))).flatten ++
  (fs.deserializationExceptions.map (fun p => lenDelim 10 (encodeDE p))).flatten ++
  encInt64 11 fs.serializationExceptions ++
  encDouble 12 fs.averageLatency ++
  encInt64 13 fs.lastInvocationTime ++
  encStr 14 fs.instanceId ++
  encOptMD fs.metrics

/-! ## Deserialization

Each message is decoded by a loop that repeatedly parses one tagged record
from the byte stream and folds it into an accumulator that starts at the
message's default value, exactly as the generated deserializer does.
Records with unknown field numbers are skipped by wire type.  The loop is
written with explicit fuel (one unit per record); the public decoders pass
`length + 1` fuel, which suffices because every record consumes at least
one byte. -/

/-- Skips the payload of one record of the given wire type (0 = varint,
1 = fixed64, 2 = length-delimited, 5 = fixed32). -/
def skipUnknown (wireType : Nat) (bytes : List Nat) : Option (List Nat) :=
  if wireType = 0 then (varintDecode bytes).map (fun pr => pr.2)
  else if wireType = 1 then
    if 8 ≤ bytes.length then some (bytes.drop 8) else none
  else if wireType = 2 then
    match varintDecode bytes with
    | some (len, r) => if len ≤ r.length then some (r.drop len) else none
    | none => none
  else if wireType = 5 then
    if 4 ≤ bytes.length then some (bytes.drop 4) else none
  else none

/-- The generic record-at-a-time decoding loop. -/
def runLoop {S : Type} (step : List Nat → S → Option (S × List Nat)) :
    Nat → List Nat → S → Option S
  | _, [], acc => some acc
  | 0, _ :: _, _ => none
  | fuel + 1, b :: bs, acc =>
    match step (b :: bs) acc with
    | some (acc2, rest) => runLoop step fuel rest acc2
    | none => none

/-- Parses one `ExceptionInformation` record: tag 10 = field 1 (string),
tag 16 = field 2 (int64 varint). -/
def stepEI (bytes : List Nat) (acc : ExceptionInformation) :
    Option (ExceptionInformation × List Nat) :=
  match varintDecode bytes with
  | none => none
  | some (t, r1) =>
    if t = 10 then
      match varintDecode r1 with
      | none => none
      | some (len, r2) =>
        if len ≤ r2.length then
          some ({ acc with exceptionString := r2.take len }, r2.drop len)
        else none
    else if t = 16 then
      match varintDecode r1 with
      | none => none
      | some (p, r2) => some ({ acc with msSinceEpoch := i64val p }, r2)
    else
      match skipUnknown (t % 8) r1 with
      | none => none
      | some r2 => some (acc, r2)

def decodeEI (bytes : List Nat) : Option ExceptionInformation :=
  runLoop stepEI (bytes.length + 1) bytes eiDefault

/-- Parses one `DeserializationExceptionsEntry` record: tag 10 = `key`
(string), tag 16 = `value` (int64 varint). -/
def stepDE (bytes : List Nat) (acc : List Nat × Int) :
    Option ((List Nat × Int) × List Nat) :=
  match varintDecode bytes with
  | none => none
  | some (t, r1) =>
    if t = 10 then
      match varintDecode r1 with
      | none => none
      | some (len, r2) =>
        if len ≤ r2.length then some ((r2.take len, acc.2), r2.drop len) else none
    else if t = 16 then
      match varintDecode r1 with
      | none => none
      | some (p, r2) => some ((acc.1, i64val p), r2)
    else
      match skipUnknown (t % 8) r1 with
      | none => none
      | some r2 => some (acc, r2)

def decodeDE (bytes : List Nat) : Option (List Nat × Int) :=
  runLoop stepDE (bytes.length + 1) bytes ([], 0)

/-- Parses one `DataDigest` record: tags 9, 17, 25, 33 are the fixed64
double fields `count`, `sum`, `max`, `min`. -/
def stepDigest (bytes : List Nat) (acc : DataDigest) :
    Option (DataDigest × List Nat) :=
  match varintDecode bytes with
  | none => none
  | some (t, r1) =>
    if t = 9 then
      match fixed64Decode r1 with
      | none => none
      | some (p, r2) => some ({ acc with count := p }, r2)
    else if t = 17 then
      match fixed64Decode r1 with
      | none => none
      | some (p, r2) => some ({ acc with sum := p }, r2)
    else if t = 25 then
      match fixed64Decode r1 with
      | none => none
      | some (p, r2) => some ({ acc with max := p }, r2)
    else if t = 33 then
      match fixed64Decode r1 with
      | none => none
      | some (p, r2) => some ({ acc with min := p }, r2)
    else
      match skipUnknown (t % 8) r1 with
      | none => none
      | some r2 => some (acc, r2)

def decodeDigest (bytes : List Nat) : Option DataDigest :=
  runLoop stepDigest (bytes.length + 1) bytes digestDefault

/-- Parses one `MetricsEntry` record: tag 10 = `key` (string), tag 18 =
`value` (`DataDigest` submessage). -/
def stepME (bytes : List Nat) (acc : List Nat × DataDigest) :
    Option ((List Nat × DataDigest) × List Nat) :=
  match varintDecode bytes with
  | none => none
  | some (t, r1) =>
    if t = 10 then
      match varintDecode r1 with
      | none => none
      | some (len, r2) =>
        if len ≤ r2.length then some ((r2.take len, acc.2), r2.drop len) else none
    else if t = 18 then
      match varintDecode r1 with
      | none => none
      | some (len, r2) =>
        if len ≤ r2.length then
          match decodeDigest (r2.take len) with
          | none => none
          | some d => some ((acc.1, d), r2.drop len)
        else none
    else
      match skipUnknown (t % 8) r1 with
      | none => none
      | some r2 => some (acc, r2)

def decodeME (bytes : List Nat) : Option (List Nat × DataDigest) :=
  runLoop stepME (bytes.length + 1) bytes ([], digestDefault)

/-- Parses one `MetricsData` record: tag 10 = one `metrics` map entry
(`MetricsEntry` submessage), appended in stream order. -/
def stepMD (bytes : List Nat) (acc : MetricsData) :
    Option (MetricsData × List Nat) :=
  match varintDecode bytes with
  | none => none
  | some (t, r1) =>
    if t = 10 then
      match varintDecode r1 with
      | none => none
      | some (len, r2) =>
        if len ≤ r2.length then
          match decodeME (r2.take len) with
          | none => none
          | some e => some ({ metrics := acc.metrics ++ [e] }, r2.drop len)
        else none
    else
      match skipUnknown (t % 8) r1 with
      | none => none
      | some r2 => some (acc, r2)

def decodeMD (bytes : List Nat) : Option MetricsData :=
  runLoop stepMD (bytes.length + 1) bytes mdDefault

/-- Parses one `FunctionStatus` record, dispatching on the tags of the
fifteen fields (field-number * 8 + wire type). -/
def stepFS (bytes : List Nat) (acc : FunctionStatus) :
    Option (FunctionStatus × List Nat) :=
  match varintDecode bytes with
  | none => none
  | some (t, r1) =>
    if t = 8 then
      match varintDecode r1 with
      | none => none
      | some (p, r2) => some ({ acc with running := p != 0 }, r2)
    else if t = 18 then
      match varintDecode r1 with
      | none => none
      | some (len, r2) =>
        if len ≤ r2.length then
          some ({ acc with failureException := r2.take len }, r2.drop len)
        else none
    else if t = 24 then
      match varintDecode r1 with
      | none => none
      | some (p, r2) => some ({ acc with numRestarts := i64val p }, r2)
    else if t = 32 then
      match varintDecode r1 with
      | none => none
      | some (p, r2) => some ({ acc with numProcessed := i64val p }, r2)
    else if t = 40 then
      match varintDecode r1 with
      | none => none
      | some (p, r2) => some ({ acc with numSuccessfullyProcessed := i64val p }, r2)
    else if t = 48 then
      match varintDecode r1 with
      | none => none
      | some (p, r2) => some ({ acc with numUserExceptions := i64val p }, r2)
    else if t = 58 then
      match varintDecode r1 with
      | none => none
      | some (len, r2) =>
        if len ≤ r2.length then
          match decodeEI (r2.take len) with
          | none => none
          | some e =>
            some ({ acc with
                    latestUserExceptions := acc.latestUserExceptions ++ [e] },
                  r2.drop len)
        else none
    else if t = 64 then
      match varintDecode r1 with
      | none => none
      | some (p, r2) => some ({ acc with numSystemExceptions := i64val p }, r2)
    else if t = 74 then
      match varintDecode r1 with
      | none => none
      | some (len, r2) =>
        if len ≤ r2.length then
          match decodeEI (r2.take len) with
          | none => none
          | some e =>
            some ({ acc with
                    latestSystemExceptions := acc.latestSystemExceptions ++ [e] },
                  r2.drop len)
        else none
    else if t = 82 then
      match varintDecode r1 with
      | none => none
      | some (len, r2) =>
        if len ≤ r2.length then
          match decodeDE (r2.take len) with
          | none => none
          | some e =>
            some ({ acc with
                    deserializationExceptions := acc.deserializationExceptions ++ [e] },
                  r2.drop len)
        else none
    else if t = 88 then
      match varintDecode r1 with
      | none => none
      | some (p, r2) => some ({ acc with serializationExceptions := i64val p }, r2)
    else if t = 97 then
      match fixed64Decode r1 with
      | none => none
      | some (p, r2) => some ({ acc with averageLatency := p }, r2)
    else if t = 104 then
      match varintDecode r1 with
      | none => none
      | some (p, r2) => some ({ acc with lastInvocationTime := i64val p }, r2)
    else if t = 114 then
      match varintDecode r1 with
      | none => none
      | some (len, r2) =>
        if len ≤ r2.length then
          some ({ acc with instanceId := r2.take len }, r2.drop len)
        else none
    else if t = 122 then
      match varintDecode r1 with
      | none => none
      | some (len, r2) =>
        if len ≤ r2.length then
          match decodeMD (r2.take len) with
          | none => none
          | some m => some ({ acc with metrics := some m }, r2.drop len)
        else none
    else
      match skipUnknown (t % 8) r1 with
      | none => none
      | some r2 => some (acc, r2)

def decodeFS (bytes : List Nat) : Option FunctionStatus :=
  runLoop stepFS (bytes.length + 1) bytes fsDefault

/-! ## Round-trip infrastructure -/

theorem varintEncode_ne_nil (n : Nat) : varintEncode n ≠ [] := by
  rw [varintEncode]
  split <;> simp

theorem lenDelim_ne_nil (f : Nat) (p : List Nat) : lenDelim f p ≠ [] := by
  unfold lenDelim
  intro h
  exact varintEncode_ne_nil _ (List.append_eq_nil.mp (List.append_eq_nil.mp h).1).1

theorem varintDecode_encode (n : Nat) (rest : List Nat) :
    varintDecode (varintEncode n ++ rest) = some (n, rest) := by
  induction n using Nat.strong_induction_on generalizing rest with
  | _ n ih =>
    rw [varintEncode]
    split
    · rename_i h
      simp [varintDecode, h]
    · rename_i h
      have h2 : ¬(128 + n % 128 < 128) := by omega
      simp only [List.cons_append, varintDecode, if_neg h2, List.append_eq,
        ih (n / 128) (Nat.div_lt_self (by omega) (by omega)) rest]
      have h3 : 128 + n % 128 - 128 + 128 * (n / 128) = n := by omega
      rw [h3]

theorem fixed64Decode_encode (p : Nat) (hp : p < 2 ^ 64) (rest : List Nat) :
    fixed64Decode (fixed64Encode p ++ rest) = some (p, rest) := by
  simp only [fixed64Encode, fixed64Decode, List.cons_append, List.nil_append,
    Option.some.injEq, Prod.mk.injEq, and_true]
  omega

theorem i64val_i64pat (v : Int) (h : i64OK v) : i64val (i64pat v) = v := by
  unfold i64OK at h
  unfold i64val i64pat
  split <;> omega

/-- The fuel loop accepts the empty stream with any fuel. -/
theorem runLoop_empty {S : Type} (step : List Nat → S → Option (S × List Nat))
    (f : Nat) (acc : S) : runLoop step f [] acc = some acc := by
  cases f <;> rfl

/-- More fuel never turns a successful run into a failure. -/
theorem runLoop_mono {S : Type} (step : List Nat → S → Option (S × List Nat)) :
    ∀ (n m : Nat) (bytes : List Nat) (acc r : S), n ≤ m →
      runLoop step n bytes acc = some r → runLoop step m bytes acc = some r := by
  intro n
  induction n with
  | zero =>
    intro m bytes acc r _ h
    cases bytes with
    | nil => rw [runLoop_empty] at h; rw [runLoop_empty]; exact h
    | cons b bs => simp [runLoop] at h
  | succ n ih =>
    intro m bytes acc r hle h
    cases bytes with
    | nil => rw [runLoop_empty] at h; rw [runLoop_empty]; exact h
    | cons b bs =>
      obtain ⟨m2, rfl⟩ : ∃ m2, m = m2 + 1 := ⟨m - 1, by omega⟩
      simp only [runLoop] at h ⊢
      cases hstep : step (b :: bs) acc with
      | none => rw [hstep] at h; exact Option.noConfusion h
      | some pr =>
        rw [hstep] at h
        obtain ⟨acc2, rest⟩ := pr
        exact ih m2 rest acc2 r (by omega) h

/-- A run of the decoding loop over `bytes` from accumulator `acc` succeeds
with result `r`, using fuel bounded by `bytes.length + 1` (the bound the
public decoders pass). -/
def DecOK {S : Type} (step : List Nat → S → Option (S × List Nat))
    (bytes : List Nat) (acc r : S) : Prop :=
  ∃ n, n ≤ bytes.length + 1 ∧ runLoop step n bytes acc = some r

theorem decok_nil {S : Type} {step : List Nat → S → Option (S × List Nat)}
    (acc : S) : DecOK step [] acc acc :=
  ⟨0, by simp, runLoop_empty step 0 acc⟩

theorem decok_cons {S : Type} {step : List Nat → S → Option (S × List Nat)}
    {chunk rest : List Nat} {acc acc2 r : S}
    (hne : chunk ≠ [])
    (hstep : step (chunk ++ rest) acc = some (acc2, rest))
    (h : DecOK step rest acc2 r) : DecOK step (chunk ++ rest) acc r := by
  obtain ⟨n, hn, hrun⟩ := h
  refine ⟨n + 1, ?_, ?_⟩
  · have h1 : 1 ≤ chunk.length := by
      cases chunk with
      | nil => exact absurd rfl hne
      | cons c cs => simp
    simp only [List.length_append]
    omega
  · cases chunk with
    | nil => exact absurd rfl hne
    | cons c cs =>
      simp only [List.cons_append] at hstep ⊢
      simp only [runLoop, hstep]
      exact hrun

theorem decok_run {S : Type} {step : List Nat → S → Option (S × List Nat)}
    {bytes : List Nat} {acc r : S} (h : DecOK step bytes acc r) :
    runLoop step (bytes.length + 1) bytes acc = some r := by
  obtain ⟨n, hn, hrun⟩ := h
  exact runLoop_mono step n (bytes.length + 1) bytes acc r hn hrun

theorem take_app (s rest : List Nat) : (s ++ rest).take s.length = s := by simp

theorem drop_app (s rest : List Nat) : (s ++ rest).drop s.length = rest := by simp

theorem encInt64_ne_nil {f : Nat} {v : Int} (hv : v ≠ 0) : encInt64 f v ≠ [] := by
  simp only [encInt64, if_neg hv]
  intro hcon
  exact varintEncode_ne_nil _ (List.append_eq_nil.mp hcon).1

theorem encDouble_ne_nil {f : Nat} {p : Nat} (hp : p ≠ 0) : encDouble f p ≠ [] := by
  simp only [encDouble, if_neg hp]
  intro hcon
  exact varintEncode_ne_nil _ (List.append_eq_nil.mp hcon).1

/-! ## Round-trip: `ExceptionInformation` -/

theorem stepEI_str (s rest : List Nat) (acc : ExceptionInformation) :
    stepEI (lenDelim 1 s ++ rest) acc =
      some ({ acc with exceptionString := s }, rest) := by
  have he : lenDelim 1 s ++ rest =
      varintEncode 10 ++ (varintEncode s.length ++ (s ++ rest)) := by
    simp [lenDelim, mkTag]
  rw [he]
  simp only [stepEI, varintDecode_encode]
  simp only [Nat.reduceEqDiff, reduceIte]
  rw [if_pos (by simp), take_app, drop_app]

theorem stepEI_int (v : Int) (rest : List Nat) (acc : ExceptionInformation)
    (hv : v ≠ 0) (h64 : i64OK v) :
    stepEI (encInt64 2 v ++ rest) acc =
      some ({ acc with msSinceEpoch := v }, rest) := by
  have he : encInt64 2 v ++ rest =
      varintEncode 16 ++ (varintEncode (i64pat v) ++ rest) := by
    simp [encInt64, hv, mkTag]
  rw [he]
  simp only [stepEI, varintDecode_encode]
  simp only [Nat.reduceEqDiff, reduceIte]
  rw [i64val_i64pat v h64]

theorem absorbEI_str {rest : List Nat} {acc r : ExceptionInformation}
    (s : List Nat) (hd : acc.exceptionString = [])
    (h : DecOK stepEI rest { acc with exceptionString := s } r) :
    DecOK stepEI (encStr 1 s ++ rest) acc r := by
  by_cases hs : s = []
  · subst hs
    simp only [encStr, if_pos rfl, List.nil_append]
    obtain ⟨a1, a2⟩ := acc
    simp only at hd
    subst hd
    exact h
  · rw [encStr, if_neg hs]
    exact decok_cons (lenDelim_ne_nil 1 s) (stepEI_str s rest acc) h

theorem absorbEI_int {rest : List Nat} {acc r : ExceptionInformation}
    (v : Int) (h64 : i64OK v) (hd : acc.msSinceEpoch = 0)
    (h : DecOK stepEI rest { acc with msSinceEpoch := v } r) :
    DecOK stepEI (encInt64 2 v ++ rest) acc r := by
  by_cases hv : v = 0
  · subst hv
    simp only [encInt64, if_pos rfl, List.nil_append]
    obtain ⟨a1, a2⟩ := acc
    simp only at hd
    subst hd
    exact h
  · refine decok_cons (encInt64_ne_nil hv) ?_ h
    rw [stepEI_int v rest acc hv h64]

/-- Decoding inverts encoding for `ExceptionInformation`. -/
theorem decodeEI_encodeEI (e : ExceptionInformation) (he : e.Valid) :
    decodeEI (encodeEI e) = some e := by
  obtain ⟨s, v⟩ := e
  obtain ⟨hs, hv⟩ := he
  unfold decodeEI
  apply decok_run
  rw [show encodeEI ⟨s, v⟩ = encStr 1 s ++ (encInt64 2 v ++ []) by
    simp [encodeEI]]
  exact absorbEI_str s rfl (absorbEI_int v hv rfl
    (decok_nil (⟨s, v⟩ : ExceptionInformation)))

/-! ## Round-trip: `DeserializationExceptionsEntry` -/

theorem stepDE_str (s rest : List Nat) (acc : List Nat × Int) :
    stepDE (lenDelim 1 s ++ rest) acc = some ((s, acc.2), rest) := by
  have he : lenDelim 1 s ++ rest =
      varintEncode 10 ++ (varintEncode s.length ++ (s ++ rest)) := by
    simp [lenDelim, mkTag]
  rw [he]
  simp only [stepDE, varintDecode_encode]
  simp only [Nat.reduceEqDiff, reduceIte]
  rw [if_pos (by simp), take_app, drop_app]

theorem stepDE_int (v : Int) (rest : List Nat) (acc : List Nat × Int)
    (hv : v ≠ 0) (h64 : i64OK v) :
    stepDE (encInt64 2 v ++ rest) acc = some ((acc.1, v), rest) := by
  have he : encInt64 2 v ++ rest =
      varintEncode 16 ++ (varintEncode (i64pat v) ++ rest) := by
    simp [encInt64, hv, mkTag]
  rw [he]
  simp only [stepDE, varintDecode_encode]
  simp only [Nat.reduceEqDiff, reduceIte]
  rw [i64val_i64pat v h64]

theorem absorbDE_str {rest : List Nat} {acc r : List Nat × Int}
    (s : List Nat) (hd : acc.1 = [])
    (h : DecOK stepDE rest (s, acc.2) r) :
    DecOK stepDE (encStr 1 s ++ rest) acc r := by
  by_cases hs : s = []
  · subst hs
    simp only [encStr, if_pos rfl, List.nil_append]
    obtain ⟨a1, a2⟩ := acc
    simp only at hd
    subst hd
    exact h
  · rw [encStr, if_neg hs]
    exact decok_cons (lenDelim_ne_nil 1 s) (stepDE_str s rest acc) h

theorem absorbDE_int {rest : List Nat} {acc r : List Nat × Int}
    (v : Int) (h64 : i64OK v) (hd : acc.2 = 0)
    (h : DecOK stepDE rest (acc.1, v) r) :
    DecOK stepDE (encInt64 2 v ++ rest) acc r := by
  by_cases hv : v = 0
  · subst hv
    simp only [encInt64, if_pos rfl, List.nil_append]
    obtain ⟨a1, a2⟩ := acc
    simp only at hd
    subst hd
    exact h
  · refine decok_cons (encInt64_ne_nil hv) ?_ h
    rw [stepDE_int v rest acc hv h64]

/-- Decoding inverts encoding for `DeserializationExceptionsEntry`. -/
theorem decodeDE_encodeDE (p : List Nat × Int) (hs : bytesOK p.1) (hv : i64OK p.2) :
    decodeDE (encodeDE p) = some p := by
  obtain ⟨s, v⟩ := p
  unfold decodeDE
  apply decok_run
  rw [show encodeDE (s, v) = encStr 1 s ++ (encInt64 2 v ++ []) by
    simp [encodeDE]]
  exact absorbDE_str s rfl (absorbDE_int v hv rfl
    (decok_nil ((s, v) : List Nat × Int)))

/-! ## Round-trip: `DataDigest` -/

theorem stepDigest_count (p : Nat) (rest : List Nat) (acc : DataDigest)
    (hp : p ≠ 0) (h64 : patOK p) :
    stepDigest (encDouble 1 p ++ rest) acc = some ({ acc with count := p }, rest) := by
  have he : encDouble 1 p ++ rest = varintEncode 9 ++ (fixed64Encode p ++ rest) := by
    simp [encDouble, hp, mkTag]
  rw [he]
  simp only [stepDigest, varintDecode_encode, fixed64Decode_encode p h64]
  simp only [Nat.reduceEqDiff, reduceIte]

theorem stepDigest_sum (p : Nat) (rest : List Nat) (acc : DataDigest)
    (hp : p ≠ 0) (h64 : patOK p) :
    stepDigest (encDouble 2 p ++ rest) acc = some ({ acc with sum := p }, rest) := by
  have he : encDouble 2 p ++ rest = varintEncode 17 ++ (fixed64Encode p ++ rest) := by
    simp [encDouble, hp, mkTag]
  rw [he]
  simp only [stepDigest, varintDecode_encode, fixed64Decode_encode p h64]
  simp only [Nat.reduceEqDiff, reduceIte]

theorem stepDigest_max (p : Nat) (rest : List Nat) (acc : DataDigest)
    (hp : p ≠ 0) (h64 : patOK p) :
    stepDigest (encDouble 3 p ++ rest) acc = some ({ acc with max := p }, rest) := by
  have he : encDouble 3 p ++ rest = varintEncode 25 ++ (fixed64Encode p ++ rest) := by
    simp [encDouble, hp, mkTag]
  rw [he]
  simp only [stepDigest, varintDecode_encode, fixed64Decode_encode p h64]
  simp only [Nat.reduceEqDiff, reduceIte]

theorem stepDigest_min (p : Nat) (rest : List Nat) (acc : DataDigest)
    (hp : p ≠ 0) (h64 : patOK p) :
    stepDigest (encDouble 4 p ++ rest) acc = some ({ acc with min := p }, rest) := by
  have he : encDouble 4 p ++ rest = varintEncode 33 ++ (fixed64Encode p ++ rest) := by
    simp [encDouble, hp, mkTag]
  rw [he]
  simp only [stepDigest, varintDecode_encode, fixed64Decode_encode p h64]
  simp only [Nat.reduceEqDiff, reduceIte]

theorem absorbDigest_count {rest : List Nat} {acc r : DataDigest}
    (p : Nat) (h64 : patOK p) (hd : acc.count = 0)
    (h : DecOK stepDigest rest { acc with count := p } r) :
    DecOK stepDigest (encDouble 1 p ++ rest) acc r := by
  by_cases hp : p = 0
  · subst hp
    simp only [encDouble, if_pos rfl, List.nil_append]
    obtain ⟨a1, a2, a3, a4⟩ := acc
    simp only at hd
    subst hd
    exact h
  · exact decok_cons (encDouble_ne_nil hp) (stepDigest_count p rest acc hp h64) h

theorem absorbDigest_sum {rest : List Nat} {acc r : DataDigest}
    (p : Nat) (h64 : patOK p) (hd : acc.sum = 0)
    (h : DecOK stepDigest rest { acc with sum := p } r) :
    DecOK stepDigest (encDouble 2 p ++ rest) acc r := by
  by_cases hp : p = 0
  · subst hp
    simp only [encDouble, if_pos rfl, List.nil_append]
    obtain ⟨a1, a2, a3, a4⟩ := acc
    simp only at hd
    subst hd
    exact h
  · exact decok_cons (encDouble_ne_nil hp) (stepDigest_sum p rest acc hp h64) h

theorem absorbDigest_max {rest : List Nat} {acc r : DataDigest}
    (p : Nat) (h64 : patOK p) (hd : acc.max = 0)
    (h : DecOK stepDigest rest { acc with max := p } r) :
    DecOK stepDigest (encDouble 3 p ++ rest) acc r := by
  by_cases hp : p = 0
  · subst hp
    simp only [encDouble, if_pos rfl, List.nil_append]
    obtain ⟨a1, a2, a3, a4⟩ := acc
    simp only at hd
    subst hd
    exact h
  · exact decok_cons (encDouble_ne_nil hp) (stepDigest_max p rest acc hp h64) h

theorem absorbDigest_min {rest : List Nat} {acc r : DataDigest}
    (p : Nat) (h64 : patOK p) (hd : acc.min = 0)
    (h : DecOK stepDigest rest { acc with min := p } r) :
    DecOK stepDigest (encDouble 4 p ++ rest) acc r := by
  by_cases hp : p = 0
  · subst hp
    simp only [encDouble, if_pos rfl, List.nil_append]
    obtain ⟨a1, a2, a3, a4⟩ := acc
    simp only at hd
    subst hd
    exact h
  · exact decok_cons (encDouble_ne_nil hp) (stepDigest_min p rest acc hp h64) h

/-- Decoding inverts encoding for `DataDigest`. -/
theorem decodeDigest_encodeDigest (d : DataDigest) (hd : d.Valid) :
    decodeDigest (encodeDigest d) = some d := by
  obtain ⟨c, s, mx, mn⟩ := d
  obtain ⟨h1, h2, h3, h4⟩ := hd
  unfold decodeDigest
  apply decok_run
  rw [show encodeDigest ⟨c, s, mx, mn⟩ =
      encDouble 1 c ++ (encDouble 2 s ++ (encDouble 3 mx ++ (encDouble 4 mn ++ []))) by
    simp [encodeDigest]]
  exact absorbDigest_count c h1 rfl (absorbDigest_sum s h2 rfl
    (absorbDigest_max mx h3 rfl (absorbDigest_min mn h4 rfl
      (decok_nil (⟨c, s, mx, mn⟩ : DataDigest)))))

/-! ## Round-trip: `MetricsEntry` and `MetricsData` -/

theorem stepME_str (s rest : List Nat) (acc : List Nat × DataDigest) :
    stepME (lenDelim 1 s ++ rest) acc = some ((s, acc.2), rest) := by
  have he : lenDelim 1 s ++ rest =
      varintEncode 10 ++ (varintEncode s.length ++ (s ++ rest)) := by
    simp [lenDelim, mkTag]
  rw [he]
  simp only [stepME, varintDecode_encode]
  simp only [Nat.reduceEqDiff, reduceIte]
  rw [if_pos (by simp), take_app, drop_app]

theorem stepME_val (d : DataDigest) (rest : List Nat) (acc : List Nat × DataDigest)
    (hd : d.Valid) :
    stepME (lenDelim 2 (encodeDigest d) ++ rest) acc = some ((acc.1, d), rest) := by
  have he : lenDelim 2 (encodeDigest d) ++ rest =
      varintEncode 18 ++
        (varintEncode (encodeDigest d).length ++ (encodeDigest d ++ rest)) := by
    simp [lenDelim, mkTag]
  rw [he]
  simp only [stepME, varintDecode_encode]
  simp only [Nat.reduceEqDiff, reduceIte]
  rw [if_pos (by simp), take_app, drop_app,
    decodeDigest_encodeDigest d hd]

theorem absorbME_str {rest : List Nat} {acc r : List Nat × DataDigest}
    (s : List Nat) (hd : acc.1 = [])
    (h : DecOK stepME rest (s, acc.2) r) :
    DecOK stepME (encStr 1 s ++ rest) acc r := by
  by_cases hs : s = []
  · subst hs
    simp only [encStr, if_pos rfl, List.nil_append]
    obtain ⟨a1, a2⟩ := acc
    simp only at hd
    subst hd
    exact h
  · rw [encStr, if_neg hs]
    exact decok_cons (lenDelim_ne_nil 1 s) (stepME_str s rest acc) h

theorem absorbME_val {rest : List Nat} {acc r : List Nat × DataDigest}
    (d : DataDigest) (hd : d.Valid)
    (h : DecOK stepME rest (acc.1, d) r) :
    DecOK stepME (lenDelim 2 (encodeDigest d) ++ rest) acc r :=
  decok_cons (lenDelim_ne_nil 2 _) (stepME_val d rest acc hd) h

/-- Decoding inverts encoding for `MetricsEntry`. -/
theorem decodeME_encodeME (p : List Nat × DataDigest)
    (hs : bytesOK p.1) (hd : p.2.Valid) :
    decodeME (encodeME p) = some p := by
  obtain ⟨s, d⟩ := p
  unfold decodeME
  apply decok_run
  rw [show encodeME (s, d) = encStr 1 s ++ (lenDelim 2 (encodeDigest d) ++ []) by
    simp [encodeME]]
  exact absorbME_str s rfl (absorbME_val d hd
    (decok_nil ((s, d) : List Nat × DataDigest)))

theorem stepMD_entry (p : List Nat × DataDigest) (rest : List Nat)
    (acc : MetricsData) (hs : bytesOK p.1) (hd : p.2.Valid) :
    stepMD (lenDelim 1 (encodeME p) ++ rest) acc =
      some (⟨acc.metrics ++ [p]⟩, rest) := by
  have he : lenDelim 1 (encodeME p) ++ rest =
      varintEncode 10 ++
        (varintEncode (encodeME p).length ++ (encodeME p ++ rest)) := by
    simp [lenDelim, mkTag]
  rw [he]
  simp only [stepMD, varintDecode_encode]
  simp only [Nat.reduceEqDiff, reduceIte]
  rw [if_pos (by simp), take_app, drop_app,
    decodeME_encodeME p hs hd]

theorem absorbMD_entries (l : List (List Nat × DataDigest)) :
    ∀ {rest : List Nat} {acc r : MetricsData},
    (∀ p ∈ l, bytesOK p.1 ∧ p.2.Valid) →
    DecOK stepMD rest ⟨acc.metrics ++ l⟩ r →
    DecOK stepMD ((l.map (fun p => lenDelim 1 (encodeME p))).flatten ++ rest) acc r := by
  induction l with
  | nil =>
    intro rest acc r _ h
    simp only [List.append_nil] at h
    simpa using h
  | cons p l ih =>
    intro rest acc r hv h
    simp only [List.map_cons, List.flatten_cons, List.append_assoc]
    refine decok_cons (lenDelim_ne_nil 1 _)
      (stepMD_entry p _ acc (hv p (by simp)).1 (hv p (by simp)).2) ?_
    refine ih (fun q hq => hv q (by simp [hq])) ?_
    have hl : (acc.metrics ++ [p]) ++ l = acc.metrics ++ (p :: l) := by simp
    show DecOK stepMD rest ⟨acc.metrics ++ [p] ++ l⟩ r
    rw [hl]
    exact h

/-- Decoding inverts encoding for `MetricsData`. -/
theorem decodeMD_encodeMD (m : MetricsData) (hm : m.Valid) :
    decodeMD (encodeMD m) = some m := by
  obtain ⟨l⟩ := m
  obtain ⟨hv, _⟩ := hm
  unfold decodeMD
  apply decok_run
  rw [show encodeMD ⟨l⟩ =
      (l.map (fun p => lenDelim 1 (encodeME p))).flatten ++ [] by
    simp [encodeMD]]
  exact absorbMD_entries l hv (decok_nil (⟨l⟩ : MetricsData))

/-! ## Round-trip: `FunctionStatus` step lemmas -/

theorem stepFS_running (rest : List Nat) (acc : FunctionStatus) :
    stepFS (encBool 1 true ++ rest) acc =
      some ({ acc with running := true }, rest) := by
  have he : encBool 1 true ++ rest =
      varintEncode 8 ++ (varintEncode 1 ++ rest) := by
    simp [encBool, mkTag]
  rw [he]
  simp only [stepFS, varintDecode_encode]
  simp only [Nat.reduceEqDiff, reduceIte]
  rfl

theorem stepFS_failureException (s rest : List Nat) (acc : FunctionStatus) :
    stepFS (lenDelim 2 s ++ rest) acc =
      some ({ acc with failureException := s }, rest) := by
  have he : lenDelim 2 s ++ rest =
      varintEncode 18 ++ (varintEncode s.length ++ (s ++ rest)) := by
    simp [lenDelim, mkTag]
  rw [he]
  simp only [stepFS, varintDecode_encode]
  simp only [Nat.reduceEqDiff, reduceIte]
  rw [if_pos (by simp), take_app, drop_app]

theorem stepFS_numRestarts (v : Int) (rest : List Nat) (acc : FunctionStatus)
    (hv : v ≠ 0) (h64 : i64OK v) :
    stepFS (encInt64 3 v ++ rest) acc =
      some ({ acc with numRestarts := v }, rest) := by
  have he : encInt64 3 v ++ rest =
      varintEncode 24 ++ (varintEncode (i64pat v) ++ rest) := by
    simp [encInt64, hv, mkTag]
  rw [he]
  simp only [stepFS, varintDecode_encode]
  simp only [Nat.reduceEqDiff, reduceIte]
  rw [i64val_i64pat v h64]

theorem stepFS_numProcessed (v : Int) (rest : List Nat) (acc : FunctionStatus)
    (hv : v ≠ 0) (h64 : i64OK v) :
    stepFS (encInt64 4 v ++ rest) acc =
      some ({ acc with numProcessed := v }, rest) := by
  have he : encInt64 4 v ++ rest =
      varintEncode 32 ++ (varintEncode (i64pat v) ++ rest) := by
    simp [encInt64, hv, mkTag]
  rw [he]
  simp only [stepFS, varintDecode_encode]
  simp only [Nat.reduceEqDiff, reduceIte]
  rw [i64val_i64pat v h64]

theorem stepFS_numSuccessfullyProcessed (v : Int) (rest : List Nat) (acc : FunctionStatus)
    (hv : v ≠ 0) (h64 : i64OK v) :
    stepFS (encInt64 5 v ++ rest) acc =
      some ({ acc with numSuccessfullyProcessed := v }, rest) := by
  have he : encInt64 5 v ++ rest =
      varintEncode 40 ++ (varintEncode (i64pat v) ++ rest) := by
    simp [encInt64, hv, mkTag]
  rw [he]
  simp only [stepFS, varintDecode_encode]
  simp only [Nat.reduceEqDiff, reduceIte]
  rw [i64val_i64pat v h64]

theorem stepFS_numUserExceptions (v : Int) (rest : List Nat) (acc : FunctionStatus)
    (hv : v ≠ 0) (h64 : i64OK v) :
    stepFS (encInt64 6 v ++ rest) acc =
      some ({ acc with numUserExceptions := v }, rest) := by
  have he : encInt64 6 v ++ rest =
      varintEncode 48 ++ (varintEncode (i64pat v) ++ rest) := by
    simp [encInt64, hv, mkTag]
  rw [he]
  simp only [stepFS, varintDecode_encode]
  simp only [Nat.reduceEqDiff, reduceIte]
  rw [i64val_i64pat v h64]

theorem stepFS_latestUserExceptions (e : ExceptionInformation) (rest : List Nat)
    (acc : FunctionStatus) (he : e.Valid) :
    stepFS (lenDelim 7 (encodeEI e) ++ rest) acc =
      some ({ acc with latestUserExceptions := acc.latestUserExceptions ++ [e] }, rest) := by
  have hb : lenDelim 7 (encodeEI e) ++ rest =
      varintEncode 58 ++
        (varintEncode (encodeEI e).length ++ (encodeEI e ++ rest)) := by
    simp [lenDelim, mkTag]
  rw [hb]
  simp only [stepFS, varintDecode_encode]
  simp only [Nat.reduceEqDiff, reduceIte]
  rw [if_pos (by simp), take_app, drop_app,
    decodeEI_encodeEI e he]

theorem stepFS_numSystemExceptions (v : Int) (rest : List Nat) (acc : FunctionStatus)
    (hv : v ≠ 0) (h64 : i64OK v) :
    stepFS (encInt64 8 v ++ rest) acc =
      some ({ acc with numSystemExceptions := v }, rest) := by
  have he : encInt64 8 v ++ rest =
      varintEncode 64 ++ (varintEncode (i64pat v) ++ rest) := by
    simp [encInt64, hv, mkTag]
  rw [he]
  simp only [stepFS, varintDecode_encode]
  simp only [Nat.reduceEqDiff, reduceIte]
  rw [i64val_i64pat v h64]

theorem stepFS_latestSystemExceptions (e : ExceptionInformation) (rest : List Nat)
    (acc : FunctionStatus) (he : e.Valid) :
    stepFS (lenDelim 9 (encodeEI e) ++ rest) acc =
      some ({ acc with latestSystemExceptions := acc.latestSystemExceptions ++ [e] }, rest) := by
  have hb : lenDelim 9 (encodeEI e) ++ rest =
      varintEncode 74 ++
        (varintEncode (encodeEI e).length ++ (encodeEI e ++ rest)) := by
    simp [lenDelim, mkTag]
  rw [hb]
  simp only [stepFS, varintDecode_encode]
  simp only [Nat.reduceEqDiff, reduceIte]
  rw [if_pos (by simp), take_app, drop_app,
    decodeEI_encodeEI e he]

theorem stepFS_deserializationExceptions (p : List Nat × Int) (rest : List Nat)
    (acc : FunctionStatus) (hs : bytesOK p.1) (hv : i64OK p.2) :
    stepFS (lenDelim 10 (encodeDE p) ++ rest) acc =
      some ({ acc with deserializationExceptions := acc.deserializationExceptions ++ [p] }, rest) := by
  have hb : lenDelim 10 (encodeDE p) ++ rest =
      varintEncode 82 ++
        (varintEncode (encodeDE p).length ++ (encodeDE p ++ rest)) := by
    simp [lenDelim, mkTag]
  rw [hb]
  simp only [stepFS, varintDecode_encode]
  simp only [Nat.reduceEqDiff, reduceIte]
  rw [if_pos (by simp), take_app, drop_app,
    decodeDE_encodeDE p hs hv]

theorem stepFS_serializationExceptions (v : Int) (rest : List Nat) (acc : FunctionStatus)
    (hv : v ≠ 0) (h64 : i64OK v) :
    stepFS (encInt64 11 v ++ rest) acc =
      some ({ acc with serializationExceptions := v }, rest) := by
  have he : encInt64 11 v ++ rest =
      varintEncode 88 ++ (varintEncode (i64pat v) ++ rest) := by
    simp [encInt64, hv, mkTag]
  rw [he]
  simp only [stepFS, varintDecode_encode]
  simp only [Nat.reduceEqDiff, reduceIte]
  rw [i64val_i64pat v h64]

theorem stepFS_averageLatency (p : Nat) (rest : List Nat) (acc : FunctionStatus)
    (hp : p ≠ 0) (h64 : patOK p) :
    stepFS (encDouble 12 p ++ rest) acc =
      some ({ acc with averageLatency := p }, rest) := by
  have he : encDouble 12 p ++ rest =
      varintEncode 97 ++ (fixed64Encode p ++ rest) := by
    simp [encDouble, hp, mkTag]
  rw [he]
  simp only [stepFS, varintDecode_encode, fixed64Decode_encode p h64]
  simp only [Nat.reduceEqDiff, reduceIte]

theorem stepFS_lastInvocationTime (v : Int) (rest : List Nat) (acc : FunctionStatus)
    (hv : v ≠ 0) (h64 : i64OK v) :
    stepFS (encInt64 13 v ++ rest) acc =
      some ({ acc with lastInvocationTime := v }, rest) := by
  have he : encInt64 13 v ++ rest =
      varintEncode 104 ++ (varintEncode (i64pat v) ++ rest) := by
    simp [encInt64, hv, mkTag]
  rw [he]
  simp only [stepFS, varintDecode_encode]
  simp only [Nat.reduceEqDiff, reduceIte]
  rw [i64val_i64pat v h64]

theorem stepFS_instanceId (s rest : List Nat) (acc : FunctionStatus) :
    stepFS (lenDelim 14 s ++ rest) acc =
      some ({ acc with instanceId := s }, rest) := by
  have he : lenDelim 14 s ++ rest =
      varintEncode 114 ++ (varintEncode s.length ++ (s ++ rest)) := by
    simp [lenDelim, mkTag]
  rw [he]
  simp only [stepFS, varintDecode_encode]
  simp only [Nat.reduceEqDiff, reduceIte]
  rw [if_pos (by simp), take_app, drop_app]

theorem stepFS_metrics (m : MetricsData) (rest : List Nat)
    (acc : FunctionStatus) (hm : m.Valid) :
    stepFS (lenDelim 15 (encodeMD m) ++ rest) acc =
      some ({ acc with metrics := some m }, rest) := by
  have hb : lenDelim 15 (encodeMD m) ++ rest =
      varintEncode 122 ++
        (varintEncode (encodeMD m).length ++ (encodeMD m ++ rest)) := by
    simp [lenDelim, mkTag]
  rw [hb]
  simp only [stepFS, varintDecode_encode]
  simp only [Nat.reduceEqDiff, reduceIte]
  rw [if_pos (by simp), take_app, drop_app,
    decodeMD_encodeMD m hm]

/-! ## Round-trip: `FunctionStatus` absorb lemmas -/

theorem absorbFS_running {rest : List Nat} {acc r : FunctionStatus}
    (b : Bool) (hd : acc.running = false)
    (h : DecOK stepFS rest { acc with running := b } r) :
    DecOK stepFS (encBool 1 b ++ rest) acc r := by
  cases b with
  | false =>
    simp only [encBool, if_neg (by simp : ¬(false = true)), List.nil_append] at h ⊢
    obtain ⟨a1, a2, a3, a4, a5, a6, a7, a8, a9, a10, a11, a12, a13, a14, a15⟩ := acc
    simp only at hd
    subst hd
    exact h
  | true =>
    refine decok_cons ?_ (stepFS_running rest acc) h
    simp only [encBool, if_pos rfl]
    intro hcon
    exact varintEncode_ne_nil _ (List.append_eq_nil.mp hcon).1

theorem absorbFS_failureException {rest : List Nat} {acc r : FunctionStatus}
    (s : List Nat) (hd : acc.failureException = [])
    (h : DecOK stepFS rest { acc with failureException := s } r) :
    DecOK stepFS (encStr 2 s ++ rest) acc r := by
  by_cases hs : s = []
  · subst hs
    simp only [encStr, if_pos rfl, List.nil_append]
    obtain ⟨a1, a2, a3, a4, a5, a6, a7, a8, a9, a10, a11, a12, a13, a14, a15⟩ := acc
    simp only at hd
    subst hd
    exact h
  · rw [encStr, if_neg hs]
    exact decok_cons (lenDelim_ne_nil 2 s) (stepFS_failureException s rest acc) h

theorem absorbFS_numRestarts {rest : List Nat} {acc r : FunctionStatus}
    (v : Int) (h64 : i64OK v) (hd : acc.numRestarts = 0)
    (h : DecOK stepFS rest { acc with numRestarts := v } r) :
    DecOK stepFS (encInt64 3 v ++ rest) acc r := by
  by_cases hv : v = 0
  · subst hv
    simp only [encInt64, if_pos rfl, List.nil_append]
    obtain ⟨a1, a2, a3, a4, a5, a6, a7, a8, a9, a10, a11, a12, a13, a14, a15⟩ := acc
    simp only at hd
    subst hd
    exact h
  · exact decok_cons (encInt64_ne_nil hv) (stepFS_numRestarts v rest acc hv h64) h

theorem absorbFS_numProcessed {rest : List Nat} {acc r : FunctionStatus}
    (v : Int) (h64 : i64OK v) (hd : acc.numProcessed = 0)
    (h : DecOK stepFS rest { acc with numProcessed := v } r) :
    DecOK stepFS (encInt64 4 v ++ rest) acc r := by
  by_cases hv : v = 0
  · subst hv
    simp only [encInt64, if_pos rfl, List.nil_append]
    obtain ⟨a1, a2, a3, a4, a5, a6, a7, a8, a9, a10, a11, a12, a13, a14, a15⟩ := acc
    simp only at hd
    subst hd
    exact h
  · exact decok_cons (encInt64_ne_nil hv) (stepFS_numProcessed v rest acc hv h64) h

theorem absorbFS_numSuccessfullyProcessed {rest : List Nat} {acc r : FunctionStatus}
    (v : Int) (h64 : i64OK v) (hd : acc.numSuccessfullyProcessed = 0)
    (h : DecOK stepFS rest { acc with numSuccessfullyProcessed := v } r) :
    DecOK stepFS (encInt64 5 v ++ rest) acc r := by
  by_cases hv : v = 0
  · subst hv
    simp only [encInt64, if_pos rfl, List.nil_append]
    obtain ⟨a1, a2, a3, a4, a5, a6, a7, a8, a9, a10, a11, a12, a13, a14, a15⟩ := acc
    simp only at hd
    subst hd
    exact h
  · exact decok_cons (encInt64_ne_nil hv) (stepFS_numSuccessfullyProcessed v rest acc hv h64) h

theorem absorbFS_numUserExceptions {rest : List Nat} {acc r : FunctionStatus}
    (v : Int) (h64 : i64OK v) (hd : acc.numUserExceptions = 0)
    (h : DecOK stepFS rest { acc with numUserExceptions := v } r) :
    DecOK stepFS (encInt64 6 v ++ rest) acc r := by
  by_cases hv : v = 0
  · subst hv
    simp only [encInt64, if_pos rfl, List.nil_append]
    obtain ⟨a1, a2, a3, a4, a5, a6, a7, a8, a9, a10, a11, a12, a13, a14, a15⟩ := acc
    simp only at hd
    subst hd
    exact h
  · exact decok_cons (encInt64_ne_nil hv) (stepFS_numUserExceptions v rest acc hv h64) h

theorem absorbFS_latestUserExceptions (l : List ExceptionInformation) :
    ∀ {rest : List Nat} {acc r : FunctionStatus},
    (∀ e ∈ l, e.Valid) →
    DecOK stepFS rest { acc with latestUserExceptions := acc.latestUserExceptions ++ l } r →
    DecOK stepFS ((l.map (fun e => lenDelim 7 (encodeEI e))).flatten ++ rest) acc r := by
  induction l with
  | nil =>
    intro rest acc r _ h
    simp only [List.append_nil] at h
    simpa using h
  | cons e l ih =>
    intro rest acc r hv h
    simp only [List.map_cons, List.flatten_cons, List.append_assoc]
    refine decok_cons (lenDelim_ne_nil 7 _)
      (stepFS_latestUserExceptions e _ acc (hv e (by simp))) ?_
    refine ih (fun q hq => hv q (by simp [hq])) ?_
    have hl : (acc.latestUserExceptions ++ [e]) ++ l = acc.latestUserExceptions ++ (e :: l) := by simp
    show DecOK stepFS rest { acc with latestUserExceptions := acc.latestUserExceptions ++ [e] ++ l } r
    rw [hl]
    exact h

theorem absorbFS_numSystemExceptions {rest : List Nat} {acc r : FunctionStatus}
    (v : Int) (h64 : i64OK v) (hd : acc.numSystemExceptions = 0)
    (h : DecOK stepFS rest { acc with numSystemExceptions := v } r) :
    DecOK stepFS (encInt64 8 v ++ rest) acc r := by
  by_cases hv : v = 0
  · subst hv
    simp only [encInt64, if_pos rfl, List.nil_append]
    obtain ⟨a1, a2, a3, a4, a5, a6, a7, a8, a9, a10, a11, a12, a13, a14, a15⟩ := acc
    simp only at hd
    subst hd
    exact h
  · exact decok_cons (encInt64_ne_nil hv) (stepFS_numSystemExceptions v rest acc hv h64) h

theorem absorbFS_latestSystemExceptions (l : List ExceptionInformation) :
    ∀ {rest : List Nat} {acc r : FunctionStatus},
    (∀ e ∈ l, e.Valid) →
    DecOK stepFS rest { acc with latestSystemExceptions := acc.latestSystemExceptions ++ l } r →
    DecOK stepFS ((l.map (fun e => lenDelim 9 (encodeEI e))).flatten ++ rest) acc r := by
  induction l with
  | nil =>
    intro rest acc r _ h
    simp only [List.append_nil] at h
    simpa using h
  | cons e l ih =>
    intro rest acc r hv h
    simp only [List.map_cons, List.flatten_cons, List.append_assoc]
    refine decok_cons (lenDelim_ne_nil 9 _)
      (stepFS_latestSystemExceptions e _ acc (hv e (by simp))) ?_
    refine ih (fun q hq => hv q (by simp [hq])) ?_
    have hl : (acc.latestSystemExceptions ++ [e]) ++ l = acc.latestSystemExceptions ++ (e :: l) := by simp
    show DecOK stepFS rest { acc with latestSystemExceptions := acc.latestSystemExceptions ++ [e] ++ l } r
    rw [hl]
    exact h

theorem absorbFS_deserializationExceptions (l : List (List Nat × Int)) :
    ∀ {rest : List Nat} {acc r : FunctionStatus},
    (∀ p ∈ l, bytesOK p.1 ∧ i64OK p.2) →
    DecOK stepFS rest { acc with deserializationExceptions := acc.deserializationExceptions ++ l } r →
    DecOK stepFS ((l.map (fun p => lenDelim 10 (encodeDE p))).flatten ++ rest) acc r := by
  induction l with
  | nil =>
    intro rest acc r _ h
    simp only [List.append_nil] at h
    simpa using h
  | cons p l ih =>
    intro rest acc r hv h
    simp only [List.map_cons, List.flatten_cons, List.append_assoc]
    refine decok_cons (lenDelim_ne_nil 10 _)
      (stepFS_deserializationExceptions p _ acc (hv p (by simp)).1 (hv p (by simp)).2) ?_
    refine ih (fun q hq => hv q (by simp [hq])) ?_
    have hl : (acc.deserializationExceptions ++ [p]) ++ l = acc.deserializationExceptions ++ (p :: l) := by simp
    show DecOK stepFS rest { acc with deserializationExceptions := acc.deserializationExceptions ++ [p] ++ l } r
    rw [hl]
    exact h

theorem absorbFS_serializationExceptions {rest : List Nat} {acc r : FunctionStatus}
    (v : Int) (h64 : i64OK v) (hd : acc.serializationExceptions = 0)
    (h : DecOK stepFS rest { acc with serializationExceptions := v } r) :
    DecOK stepFS (encInt64 11 v ++ rest) acc r := by
  by_cases hv : v = 0
  · subst hv
    simp only [encInt64, if_pos rfl, List.nil_append]
    obtain ⟨a1, a2, a3, a4, a5, a6, a7, a8, a9, a10, a11, a12, a13, a14, a15⟩ := acc
    simp only at hd
    subst hd
    exact h
  · exact decok_cons (encInt64_ne_nil hv) (stepFS_serializationExceptions v rest acc hv h64) h

theorem absorbFS_averageLatency {rest : List Nat} {acc r : FunctionStatus}
    (p : Nat) (h64 : patOK p) (hd : acc.averageLatency = 0)
    (h : DecOK stepFS rest { acc with averageLatency := p } r) :
    DecOK stepFS (encDouble 12 p ++ rest) acc r := by
  by_cases hp : p = 0
  · subst hp
    simp only [encDouble, if_pos rfl, List.nil_append]
    obtain ⟨a1, a2, a3, a4, a5, a6, a7, a8, a9, a10, a11, a12, a13, a14, a15⟩ := acc
    simp only at hd
    subst hd
    exact h
  · exact decok_cons (encDouble_ne_nil hp) (stepFS_averageLatency p rest acc hp h64) h

theorem absorbFS_lastInvocationTime {rest : List Nat} {acc r : FunctionStatus}
    (v : Int) (h64 : i64OK v) (hd : acc.lastInvocationTime = 0)
    (h : DecOK stepFS rest { acc with lastInvocationTime := v } r) :
    DecOK stepFS (encInt64 13 v ++ rest) acc r := by
  by_cases hv : v = 0
  · subst hv
    simp only [encInt64, if_pos rfl, List.nil_append]
    obtain ⟨a1, a2, a3, a4, a5, a6, a7, a8, a9, a10, a11, a12, a13, a14, a15⟩ := acc
    simp only at hd
    subst hd
    exact h
  · exact decok_cons (encInt64_ne_nil hv) (stepFS_lastInvocationTime v rest acc hv h64) h

theorem absorbFS_instanceId {rest : List Nat} {acc r : FunctionStatus}
    (s : List Nat) (hd : acc.instanceId = [])
    (h : DecOK stepFS rest { acc with instanceId := s } r) :
    DecOK stepFS (encStr 14 s ++ rest) acc r := by
  by_cases hs : s = []
  · subst hs
    simp only [encStr, if_pos rfl, List.nil_append]
    obtain ⟨a1, a2, a3, a4, a5, a6, a7, a8, a9, a10, a11, a12, a13, a14, a15⟩ := acc
    simp only at hd
    subst hd
    exact h
  · rw [encStr, if_neg hs]
    exact decok_cons (lenDelim_ne_nil 14 s) (stepFS_instanceId s rest acc) h

theorem absorbFS_metrics {rest : List Nat} {acc r : FunctionStatus}
    (o : Option MetricsData) (ho : ∀ m ∈ o, m.Valid) (hd : acc.metrics = none)
    (h : DecOK stepFS rest { acc with metrics := o } r) :
    DecOK stepFS (encOptMD o ++ rest) acc r := by
  cases o with
  | none =>
    simp only [encOptMD, List.nil_append]
    obtain ⟨a1, a2, a3, a4, a5, a6, a7, a8, a9, a10, a11, a12, a13, a14, a15⟩ := acc
    simp only at hd
    subst hd
    exact h
  | some m =>
    exact decok_cons (lenDelim_ne_nil 15 _)
      (stepFS_metrics m rest acc (ho m (by simp))) h

/-- Decoding inverts encoding for `FunctionStatus`: the serializer and
deserializer compose to the identity on every valid value. -/
theorem decodeFS_encodeFS (fs : FunctionStatus) (hv : fs.Valid) :
    decodeFS (encodeFS fs) = some fs := by
  obtain ⟨f1, f2, f3, f4, f5, f6, f7, f8, f9, f10, f11, f12, f13, f14, f15⟩ := fs
  obtain ⟨h2, h3, h4, h5, h6, h7, h8, h9, h10, h10n, h11, h12, h13, h14, h15⟩ := hv
  unfold decodeFS
  apply decok_run
  rw [show encodeFS ⟨f1, f2, f3, f4, f5, f6, f7, f8, f9, f10, f11, f12, f13, f14, f15⟩ =
      encBool 1 f1 ++ (encStr 2 f2 ++ (encInt64 3 f3 ++ (encInt64 4 f4 ++
      (encInt64 5 f5 ++ (encInt64 6 f6 ++
      ((f7.map (fun e => lenDelim 7 (encodeEI e))).flatten ++
      (encInt64 8 f8 ++
      ((f9.map (fun e => lenDelim 9 (encodeEI e))).flatten ++
      ((f10.map (fun p => lenDelim 10 (encodeDE p))).flatten ++
      (encInt64 11 f11 ++ (encDouble 12 f12 ++ (encInt64 13 f13 ++
      (encStr 14 f14 ++
      (encOptMD f15 ++ [])))))))))))))) by
    simp [encodeFS]]
  exact absorbFS_running f1 rfl
    (absorbFS_failureException f2 rfl
    (absorbFS_numRestarts f3 h3 rfl
    (absorbFS_numProcessed f4 h4 rfl
    (absorbFS_numSuccessfullyProcessed f5 h5 rfl
    (absorbFS_numUserExceptions f6 h6 rfl
    (absorbFS_latestUserExceptions f7 h7
    (absorbFS_numSystemExceptions f8 h8 rfl
    (absorbFS_latestSystemExceptions f9 h9
    (absorbFS_deserializationExceptions f10 h10
    (absorbFS_serializationExceptions f11 h11 rfl
    (absorbFS_averageLatency f12 h12 rfl
    (absorbFS_lastInvocationTime f13 h13 rfl
    (absorbFS_instanceId f14 rfl
    (absorbFS_metrics f15 h15 rfl
    (decok_nil (⟨f1, f2, f3, f4, f5, f6, f7, f8, f9, f10, f11, f12, f13, f14,
      f15⟩ : FunctionStatus))))))))))))))))

/-! ## The metrics accumulator behind the service

The repository ships only the service declarations (`_INSTANCECONTROL` and
its `MethodDescriptor`s); the accumulator the five operations act on lives
outside the generated file.  It is therefore modelled from the spec for
the behavioural claim about `GetAndResetMetrics`/`GetMetrics`. -/

/-- Modelled from the spec: one per-metric streaming digest, section 4.2 —
`count`, `sum` and the extrema, the extrema starting at minus/plus
infinity (`⊥`/`⊤`).  Observed values are rationals (the spec's numeric
semantics excludes non-finite inputs).  The accumulator implementation is
not part of the generated source file. -/
structure SpecDigest where
  count : ℚ
  sum : ℚ
  maxv : WithBot ℚ
  minv : WithTop ℚ
deriving DecidableEq

/-- Modelled from the spec: the fresh digest created when a metric name is
first observed — count 0, sum 0, max at minus infinity, min at plus
infinity. -/
def freshSpecDigest : SpecDigest := { count := 0, sum := 0, maxv := ⊥, minv := ⊤ }

/-- Modelled from the spec: `count += 1; sum += value; max = max(max, value);
min = min(min, value)`. -/
def specDigestObserve (d : SpecDigest) (v : ℚ) : SpecDigest :=
  { count := d.count + 1, sum := d.sum + v,
    maxv := max d.maxv (v : WithBot ℚ), minv := min d.minv (v : WithTop ℚ) }

/-- Modelled from the spec: the metrics accumulator, a mapping from metric
name to digest (kept as an association list in insertion order, keys
unique by construction of `observe`). -/
def MetricsState : Type := List (String × SpecDigest)

/-- Modelled from the spec: the accumulator's startup state — no metrics
reported yet. -/
def initialMetrics : MetricsState := []

/-- Modelled from the spec: `observe(name, value)` — if `name` is absent a
fresh digest is created, then one observation is folded in. -/
def observe : MetricsState → String → ℚ → MetricsState
  | [], n, v => [(n, specDigestObserve freshSpecDigest v)]
  | (k, d) :: rest, n, v =>
    if k = n then (k, specDigestObserve d v) :: rest
    else (k, d) :: observe rest n v

/-- A whole sequence of `observe` calls, folded over the accumulator. -/
def applyObserves (calls : List (String × ℚ)) (s : MetricsState) : MetricsState :=
  calls.foldl (fun st c => observe st c.1 c.2) s

/-- Modelled from the spec: `GetMetrics` — a read-only snapshot of the
accumulator (section 4.3). -/
def getMetrics (s : MetricsState) : MetricsState := s

/-- Modelled from the spec: `ResetMetrics` — clear the accumulator,
discarding values. -/
def resetMetrics (_ : MetricsState) : MetricsState := []

/-- Modelled from the spec: `GetAndResetMetrics` — snapshot-then-clear:
returns the pre-reset snapshot and the cleared accumulator state. -/
def getAndResetMetrics (s : MetricsState) : MetricsState × MetricsState :=
  (getMetrics s, resetMetrics s)

/-! ## The claims -/

/-- C1: the service `proto.InstanceControl` exposes exactly five unary
operations, each taking `google.protobuf.Empty`: `GetFunctionStatus`
returning `proto.FunctionStatus`, `GetAndResetMetrics` returning
`proto.MetricsData`, `ResetMetrics` returning `google.protobuf.Empty`,
`GetMetrics` returning `proto.MetricsData`, and `HealthCheck` returning
`proto.HealthCheckResult`; no other operation exists on the service. -/
theorem c1_instanceControl_five_unary_ops :
    instanceControlMethods.map (fun m => (m.name, m.inputType, m.outputType)) =
      [("GetFunctionStatus", "google.protobuf.Empty", "proto.FunctionStatus"),
       ("GetAndResetMetrics", "google.protobuf.Empty", "proto.MetricsData"),
       ("ResetMetrics", "google.protobuf.Empty", "google.protobuf.Empty"),
       ("GetMetrics", "google.protobuf.Empty", "proto.MetricsData"),
       ("HealthCheck", "google.protobuf.Empty", "proto.HealthCheckResult")] ∧
    instanceControlMethods.length = 5 := by
  exact ⟨rfl, rfl⟩

/-- C2: the wire field numbers are exactly as promised:
`FunctionStatus.running = 1`, `FunctionStatus.failureException = 2`,
`FunctionStatus.metrics = 15`, `MetricsData.metrics = 1`, and both map
entry messages encode their key as field 1 and their value as field 2. -/
theorem c2_wire_field_numbers :
    fieldNum functionStatusFields "running" = some 1 ∧
    fieldNum functionStatusFields "failureException" = some 2 ∧
    fieldNum functionStatusFields "metrics" = some 15 ∧
    fieldNum metricsDataFields "metrics" = some 1 ∧
    fieldNum deserializationExceptionsEntryFields "key" = some 1 ∧
    fieldNum deserializationExceptionsEntryFields "value" = some 2 ∧
    fieldNum metricsEntryFields "key" = some 1 ∧
    fieldNum metricsEntryFields "value" = some 2 := by
  exact ⟨rfl, rfl, rfl, rfl, rfl, rfl, rfl, rfl⟩

/-- C3: serializing any valid `FunctionStatus` (including one with empty
exception lists, an empty `deserializationExceptions` map and an unset
`metrics` submessage) and deserializing the bytes yields a field-for-field
equal value. -/
theorem c3_functionStatus_roundtrip (fs : FunctionStatus) (hv : fs.Valid) :
    decodeFS (encodeFS fs) = some fs :=
  decodeFS_encodeFS fs hv

/-- Witness for C3 at a concrete value with empty lists, empty map and
unset metrics submessage. -/
theorem c3_functionStatus_roundtrip_witness :
    FunctionStatus.Valid
      ⟨true, [], 5, 10, 9, 1, [], 0, [], [], 0, 0, 123456, [105], none⟩ ∧
    decodeFS (encodeFS
      ⟨true, [], 5, 10, 9, 1, [], 0, [], [], 0, 0, 123456, [105], none⟩) =
      some ⟨true, [], 5, 10, 9, 1, [], 0, [], [], 0, 0, 123456, [105], none⟩ :=
  ⟨by decide, c3_functionStatus_roundtrip _ (by decide)⟩

/-- C4: a freshly constructed `FunctionStatus` has every counter zero,
`running = false`, empty strings, empty exception lists and map, zero
latency and invocation time, and an absent `metrics` submessage — exactly
the descriptor `default_value` entries. -/
theorem c4_fresh_functionStatus_defaults :
    fsDefault.numRestarts = 0 ∧ fsDefault.numProcessed = 0 ∧
    fsDefault.numSuccessfullyProcessed = 0 ∧ fsDefault.numUserExceptions = 0 ∧
    fsDefault.numSystemExceptions = 0 ∧ fsDefault.serializationExceptions = 0 ∧
    fsDefault.running = false ∧ fsDefault.failureException = [] ∧
    fsDefault.instanceId = [] ∧ fsDefault.latestUserExceptions = [] ∧
    fsDefault.latestSystemExceptions = [] ∧
    fsDefault.deserializationExceptions = [] ∧
    fsDefault.averageLatency = 0 ∧ fsDefault.lastInvocationTime = 0 ∧
    fsDefault.metrics = none ∧
    functionStatusFields.map (fun f => f.defaultValue) =
      [.dBool false, .dStr "", .dInt 0, .dInt 0, .dInt 0, .dInt 0, .dList,
       .dInt 0, .dList, .dList, .dInt 0, .dDouble 0, .dInt 0, .dStr "",
       .dNone] := by
  exact ⟨rfl, rfl, rfl, rfl, rfl, rfl, rfl, rfl, rfl, rfl, rfl, rfl, rfl, rfl,
    rfl, rfl⟩

/-- C5: `proto.MetricsData.DataDigest` has exactly four fields — `count`
(1), `sum` (2), `max` (3), `min` (4) — all of protobuf type 1 / C++ type 5
(double) with default `float(0)`. -/
theorem c5_dataDigest_four_double_fields :
    dataDigestFields.map
        (fun f => (f.name, f.number, f.typeCode, f.cppType, f.defaultValue)) =
      [("count", 1, 1, 5, .dDouble 0), ("sum", 2, 1, 5, .dDouble 0),
       ("max", 3, 1, 5, .dDouble 0), ("min", 4, 1, 5, .dDouble 0)] ∧
    dataDigestFields.length = 4 := by
  exact ⟨rfl, rfl⟩

/-- C6: `ExceptionInformation` carries exactly two fields — the string
`exceptionString` (field 1, type 9, default `""`) and the int64
`msSinceEpoch` (field 2, type 3) — and both `latestUserExceptions` and
`latestSystemExceptions` are repeated (label 3) fields of this same
message type. -/
theorem c6_exceptionInformation_shape :
    exceptionInformationFields.map
        (fun f => (f.name, f.number, f.typeCode, f.defaultValue)) =
      [("exceptionString", 1, 9, .dStr ""), ("msSinceEpoch", 2, 3, .dInt 0)] ∧
    exceptionInformationFields.length = 2 ∧
    (functionStatusFields.find? (fun f => f.name == "latestUserExceptions")).map
        (fun f => (f.label, f.messageType)) =
      some (3, some "proto.FunctionStatus.ExceptionInformation") ∧
    (functionStatusFields.find? (fun f => f.name == "latestSystemExceptions")).map
        (fun f => (f.label, f.messageType)) =
      some (3, some "proto.FunctionStatus.ExceptionInformation") := by
  exact ⟨rfl, rfl, rfl, rfl⟩

/-- C7: `deserializationExceptions` is a map field (repeated entry message
marked `map_entry`, string key field 1, int64 value field 2), whereas
`serializationExceptions` is a single unkeyed int64 field with number
11. -/
theorem c7_deserialization_map_vs_serialization_scalar :
    deserializationExceptionsEntryDescriptor.isMapEntry = true ∧
    deserializationExceptionsEntryFields.map
        (fun f => (f.name, f.number, f.typeCode)) =
      [("key", 1, 9), ("value", 2, 3)] ∧
    (functionStatusFields.find?
        (fun f => f.name == "deserializationExceptions")).map
        (fun f => (f.label, f.messageType)) =
      some (3, some "proto.FunctionStatus.DeserializationExceptionsEntry") ∧
    (functionStatusFields.find?
        (fun f => f.name == "serializationExceptions")).map
        (fun f => (f.number, f.typeCode, f.label)) = some (11, 3, 1) := by
  exact ⟨rfl, rfl, rfl, rfl⟩

/-- C8: after any sequence of `observe` calls, `GetAndResetMetrics`
followed immediately by `GetMetrics` yields the empty snapshot, and the
value `GetAndResetMetrics` returns equals what `GetMetrics` would have
returned immediately before the reset. -/
theorem c8_getAndResetMetrics_snapshot_then_clear (calls : List (String × ℚ)) :
    getMetrics (getAndResetMetrics (applyObserves calls initialMetrics)).2 =
      initialMetrics ∧
    (getAndResetMetrics (applyObserves calls initialMetrics)).1 =
      getMetrics (applyObserves calls initialMetrics) :=
  ⟨rfl, rfl⟩

/-- C9: the wire schema places no upper bound on the exception history:
for every `n` there is a valid `FunctionStatus` whose
`latestUserExceptions` and `latestSystemExceptions` both have length
`n`. -/
theorem c9_schema_unbounded_exception_history (n : Nat) :
    ∃ fs : FunctionStatus, fs.Valid ∧
      fs.latestUserExceptions.length = n ∧
      fs.latestSystemExceptions.length = n := by
  refine ⟨{ fsDefault with
            latestUserExceptions := List.replicate n eiDefault,
            latestSystemExceptions := List.replicate n eiDefault },
          ?_, by simp, by simp⟩
  unfold FunctionStatus.Valid fsDefault
  refine ⟨by simp [bytesOK], by simp [i64OK], by simp [i64OK], by simp [i64OK],
    by simp [i64OK], ?_, by simp [i64OK], ?_, by simp, by simp, by simp [i64OK],
    by simp [patOK], by simp [i64OK], by simp [bytesOK], by simp⟩ <;>
  · intro e he
    simp only [List.eq_of_mem_replicate he]
    exact ⟨by simp [eiDefault, bytesOK], by simp [eiDefault, i64OK]⟩

/-- C10: the counter fields are plain int64 fields (type 3) with no
relating constraint: some valid `FunctionStatus` has
`numSuccessfullyProcessed` exceeding `numProcessed`. -/
theorem c10_counters_unconstrained :
    (functionStatusFields.find? (fun f => f.name == "numProcessed")).map
        (fun f => (f.typeCode, f.cppType)) = some (3, 2) ∧
    (functionStatusFields.find?
        (fun f => f.name == "numSuccessfullyProcessed")).map
        (fun f => (f.typeCode, f.cppType)) = some (3, 2) ∧
    ∃ fs : FunctionStatus, fs.Valid ∧ fs.numProcessed < fs.numSuccessfullyProcessed := by
  refine ⟨rfl, rfl,
    ⟨{ fsDefault with numProcessed := 2, numSuccessfullyProcessed := 5 },
     by decide, by decide⟩⟩

end InstanceComm
